import Mathlib

/-!
Verification of the JSON-line progress-reporting protocol and lifecycle
controller implemented in `Resources/Scripts/train_yolov8.py`.

The script is shallowly embedded: Python dicts become ordered association
lists of `String × JValue` (insertion order preserved, as in Python 3),
Python floats become `ℚ`, and the behaviour of the external training
engine (ultralytics), the filesystem and the clock is abstracted into an
explicit environment `Env` that records what the externals did during one
process invocation.  A run of `train_yolov8` is then a pure function from
a configuration and an environment to the emitted event trace, the process
exit code, and the model source handed to the engine constructor.
-/

namespace TrainYolo

/-- A JSON value as produced by `json.dumps` on the payloads this script
builds: `None` becomes `null`, ints and floats become numbers (both
modelled by `ℚ`), strings stay strings. -/
inductive JValue where
  | null : JValue
  | num : ℚ → JValue
  | str : String → JValue
  deriving DecidableEq

/-- One emitted line: `emit(event_type, **kwargs)` builds the dict
`{"type": event_type, **kwargs}` and prints it as one JSON line.  The
`type` discriminator and the remaining ordered key/value pairs are kept
separate here. -/
structure Event where
  type : String
  kwargs : List (String × JValue)
  deriving DecidableEq

/-- `emit(event_type, **kwargs)` from the script. -/
def emit (event_type : String) (kwargs : List (String × JValue)) : Event :=
  ⟨event_type, kwargs⟩

/-- `log(level, message)`: `emit("log", level=level, message=message)`. -/
def log (level : String) (message : String) : Event :=
  emit "log" [("level", JValue.str level), ("message", JValue.str message)]

/-- A Python optional int argument as it lands in a JSON payload:
`None` serialises to `null`. -/
def optNum : Option Nat → JValue
  | none => JValue.null
  | some n => JValue.num (n : ℚ)

/-- `progress(epoch, total_epochs, step=None, total_steps=None)`:
`emit("progress", epoch=…, totalEpochs=…, step=step, totalSteps=total_steps)`.
Note that `step` and `totalSteps` are passed to `emit` unconditionally,
so the keys are always present in the record (with `null` when the
arguments were left at their `None` defaults). -/
def progress (epoch : Nat) (total_epochs : Nat)
    (step : Option Nat) (total_steps : Option Nat) : Event :=
  emit "progress"
    [("epoch", JValue.num (epoch : ℚ)),
     ("totalEpochs", JValue.num (total_epochs : ℚ)),
     ("step", optNum step),
     ("totalSteps", optNum total_steps)]

/-- First-match lookup in an ordered association list; since the lists we
build have unique keys this is exactly Python's `d[k]` (as `Option`). -/
def dictGet : List (String × JValue) → String → Option JValue
  | [], _ => none
  | (k1, v) :: rest, k => if k1 = k then some v else dictGet rest k

/-- `d[k] = v` on an ordered dict: overwrite in place when the key is
present (keeping its position), append at the end otherwise — Python
dict semantics. -/
def dictSet : List (String × JValue) → String → JValue → List (String × JValue)
  | [], k, v => [(k, v)]
  | p :: rest, k, v => if p.1 = k then (k, v) :: rest else p :: dictSet rest k v

/-- `d.update(extra)` on ordered dicts: set each pair of `extra` in order. -/
def dictUpdate (d : List (String × JValue)) (extra : List (String × JValue)) :
    List (String × JValue) :=
  extra.foldl (fun acc p => dictSet acc p.1 p.2) d

/-- `metric(epoch, loss, accuracy=None, step=None, **extra)`: builds
`{"epoch": epoch, "loss": loss}`, conditionally adds `accuracy` and
`step`, then `data.update(extra)` and `emit("metric", **data)`. -/
def metric (epoch : Nat) (loss : ℚ) (accuracy : Option ℚ)
    (step : Option Nat) (extra : List (String × JValue)) : Event :=
  let data : List (String × JValue) :=
    [("epoch", JValue.num (epoch : ℚ)), ("loss", JValue.num loss)]
  let data := match accuracy with
    | some a => data ++ [("accuracy", JValue.num a)]
    | none => data
  let data := match step with
    | some s => data ++ [("step", JValue.num (s : ℚ))]
    | none => data
  emit "metric" (dictUpdate data extra)

/-- `checkpoint(path, epoch)`: `emit("checkpoint", path=path, epoch=epoch)`. -/
def checkpoint (path : String) (epoch : Nat) : Event :=
  emit "checkpoint" [("path", JValue.str path), ("epoch", JValue.num (epoch : ℚ))]

/-- `completed(final_loss, final_accuracy, duration)`. -/
def completed (final_loss : ℚ) (final_accuracy : ℚ) (duration : ℚ) : Event :=
  emit "completed"
    [("finalLoss", JValue.num final_loss),
     ("finalAccuracy", JValue.num final_accuracy),
     ("duration", JValue.num duration)]

/-- `error(message)`: `emit("error", message=message)`. -/
def error (message : String) : Event :=
  emit "error" [("message", JValue.str message)]

/-- An event as it went out on the stream, annotated with the one
filesystem fact the spec's invariants talk about: whether the path named
by the event (for `checkpoint` events) existed on disk at the moment of
emission.  For every non-`checkpoint` event the flag is `true` by
convention.  Whether the engine had actually written `best.pt` when a
save hook fired is a fact about the external world, so it is supplied by
the environment, not computed. -/
structure Emission where
  event : Event
  pathExists : Bool
  deriving DecidableEq

/-- Wrap an event whose emission involves no filesystem path. -/
def ev (e : Event) : Emission := ⟨e, true⟩

/-- The configuration surface of `train_yolov8` (its keyword parameters,
which `main` fills from the CLI options). -/
structure Config where
  model_variant : String
  dataset : String
  epochs : Nat
  batch_size : Nat
  image_size : Nat
  learning_rate : ℚ
  output_dir : String
  resume : Bool
  device : String
  deriving DecidableEq

/-- `metrics.get(key, 0)` followed by `float(…)`: lookup with default 0
in the trainer's metrics mapping. -/
def metricsGet : List (String × ℚ) → String → ℚ
  | [], _ => 0
  | (k1, v) :: rest, k => if k1 = k then v else metricsGet rest k

/-- One callback invocation made by the training engine during
`model.train`, carrying the trainer-state fields the corresponding hook
reads. -/
inductive HookCall where
  /-- `on_train_epoch_end`: `trainer.epoch` and `trainer.metrics`. -/
  | epochEnd : Nat → List (String × ℚ) → HookCall
  /-- `on_train_batch_end`: `trainer.epoch`, `trainer.batch`,
  `len(trainer.train_loader)`. -/
  | batchEnd : Nat → Nat → Nat → HookCall
  /-- `on_model_save`: `trainer.epoch`, `trainer.save_dir`, and the
  environment fact of whether `save_dir/weights/best.pt` exists on disk
  at this moment. -/
  | modelSave : Nat → String → Bool → HookCall
  deriving DecidableEq

/-- How the blocking `model.train(...)` call ended. -/
inductive TrainOutcome where
  /-- Normal return; the payload is `results.results_dict` when
  `hasattr(results, "results_dict")` holds, and `none` otherwise
  (the script then substitutes `{}`). -/
  | normal : Option (List (String × ℚ)) → TrainOutcome
  /-- `KeyboardInterrupt` raised during the call. -/
  | interrupted : TrainOutcome
  /-- Any other exception, with `str(e)`. -/
  | failed : String → TrainOutcome
  deriving DecidableEq

/-- How the `YOLO(...)` constructor call ended. -/
inductive LoadResult where
  | ok : LoadResult
  | interrupted : LoadResult
  | failed : String → LoadResult
  deriving DecidableEq

/-- Everything the externals (ultralytics, filesystem, clock) did during
one process invocation. -/
structure Env where
  /-- Whether `from ultralytics import YOLO` succeeds. -/
  ultralyticsAvailable : Bool
  /-- `os.path.exists(f"{output_dir}/weights/last.pt")` at startup. -/
  lastCheckpointExists : Bool
  /-- Outcome of the `YOLO(...)` constructor call. -/
  load : LoadResult
  /-- The callback invocations the engine performed, in order, before
  `model.train` returned, raised, or was interrupted. -/
  hooks : List HookCall
  /-- How `model.train` ended. -/
  outcome : TrainOutcome
  /-- `best_weights.exists()` for `output_dir/train/weights/best.pt`
  after training returned. -/
  bestWeightsExistsAtEnd : Bool
  /-- `time.time() - start_time` observed after training returned. -/
  duration : ℚ
  deriving DecidableEq

/-- `on_train_epoch_end(trainer)`: sum the three loss components from
`trainer.metrics`, then emit `metric`, `progress` (epoch granularity)
and an info `log`, in that order. -/
def on_train_epoch_end (epochs : Nat) (trainer_epoch : Nat)
    (metrics : List (String × ℚ)) : List Emission :=
  let epoch := trainer_epoch + 1
  let box_loss := metricsGet metrics "train/box_loss"
  let cls_loss := metricsGet metrics "train/cls_loss"
  let dfl_loss := metricsGet metrics "train/dfl_loss"
  let total_loss := box_loss + cls_loss + dfl_loss
  let map50 := metricsGet metrics "metrics/mAP50(B)"
  let map50_95 := metricsGet metrics "metrics/mAP50-95(B)"
  let l := total_loss
  let m1 := map50
  let m2 := map50_95
  [ ev (metric epoch total_loss (some map50) none
      [("mAP50", JValue.num map50),
       ("mAP50_95", JValue.num map50_95),
       ("box_loss", JValue.num box_loss),
       ("cls_loss", JValue.num cls_loss),
       ("dfl_loss", JValue.num dfl_loss)]),
    ev (progress epoch epochs none none),
    ev (log "info" s!"Epoch {epoch}/{epochs} - Loss: {l}, mAP50: {m1}, mAP50-95: {m2}") ]

/-- `on_train_batch_end(trainer)`: a step-level `progress` event when
`trainer.batch % 10 == 0`, nothing otherwise. -/
def on_train_batch_end (epochs : Nat) (trainer_epoch : Nat)
    (batch : Nat) (train_loader_len : Nat) : List Emission :=
  if batch % 10 = 0 then
    [ev (progress (trainer_epoch + 1) epochs (some batch) (some train_loader_len))]
  else
    []

/-- `on_model_save(trainer)`: emit a `checkpoint` event for
`save_dir / "weights" / "best.pt"` — with no existence check; the
`bestExistsNow` flag is the environment's record of whether that path
existed at this moment, attached to the emission. -/
def on_model_save (trainer_epoch : Nat) (save_dir : String)
    (bestExistsNow : Bool) : List Emission :=
  [⟨checkpoint (save_dir ++ "/weights/best.pt") (trainer_epoch + 1), bestExistsNow⟩]

/-- The events produced by one callback invocation. -/
def hookEvents (epochs : Nat) : HookCall → List Emission
  | HookCall.epochEnd e metrics => on_train_epoch_end epochs e metrics
  | HookCall.batchEnd e b len => on_train_batch_end epochs e b len
  | HookCall.modelSave e dir best => on_model_save e dir best

/-- The events produced by a sequence of callback invocations, in order. -/
def hooksTrace (epochs : Nat) : List HookCall → List Emission
  | [] => []
  | h :: rest => hookEvents epochs h ++ hooksTrace epochs rest

/-- The four info `log` lines emitted right after a successful import
(lines 75–78 of the script). -/
def preambleEvents (cfg : Config) : List Emission :=
  let mv := cfg.model_variant
  let ds := cfg.dataset
  let ep := cfg.epochs
  let bs := cfg.batch_size
  let isz := cfg.image_size
  let lr := cfg.learning_rate
  let dev := cfg.device
  [ ev (log "info" "Initializing YOLOv8 training..."),
    ev (log "info" s!"Model: {mv}, Dataset: {ds}, Epochs: {ep}"),
    ev (log "info" s!"Batch size: {bs}, Image size: {isz}, LR: {lr}"),
    ev (log "info" s!"Device: {dev}") ]

/-- The info `log` line emitted by the fresh-vs-resume branch, before the
`YOLO(...)` constructor is invoked. -/
def loadLogEvent (cfg : Config) (lastExists : Bool) : Emission :=
  if cfg.resume && lastExists then
    ev (log "info" "Resuming from last checkpoint...")
  else
    let mv := cfg.model_variant
    ev (log "info" s!"Loading pretrained {mv} model...")

/-- The argument handed to the `YOLO(...)` constructor: the "last"
checkpoint inside the output directory when resuming and it exists, the
pretrained baseline named by the model variant otherwise. -/
def modelSource (cfg : Config) (lastExists : Bool) : String :=
  if cfg.resume && lastExists then
    cfg.output_dir ++ "/weights/last.pt"
  else
    cfg.model_variant ++ ".pt"

/-- The non-terminal part of the events emitted after `model.train`
returns normally: the two info logs and, when the best-weights file
exists on disk, the `checkpoint` event naming it (the only guarded
checkpoint emission in the script). -/
def postTrainFront (cfg : Config) (bestExists : Bool)
    (duration final_map50 : ℚ) : List Emission :=
  [ ev (log "info" s!"Training completed in {duration}s"),
    ev (log "info" s!"Final mAP50: {final_map50}") ]
  ++ (if bestExists then
        [⟨checkpoint (cfg.output_dir ++ "/train/weights/best.pt") cfg.epochs,
          bestExists⟩]
      else [])

/-- The events emitted after `model.train` returns normally: two info
logs, the guarded best-weights `checkpoint` event, and the terminal
`completed` event. -/
def postTrainEvents (cfg : Config) (env : Env)
    (results_dict : Option (List (String × ℚ))) : List Emission :=
  let final_metrics := results_dict.getD []
  let final_map50 := metricsGet final_metrics "metrics/mAP50(B)"
  let final_loss := metricsGet final_metrics "train/box_loss"
    + metricsGet final_metrics "train/cls_loss"
    + metricsGet final_metrics "train/dfl_loss"
  postTrainFront cfg env.bestWeightsExistsAtEnd env.duration final_map50
  ++ [ev (completed final_loss final_map50 env.duration)]

/-- The emissions and exit code contributed by the blocking
`model.train` call and what follows it inside the `try` block: the hook
events, then — depending on how the call ended — the interrupt warning
(exit 0), the `error` terminal (exit 1), or the post-training events
ending in `completed` (exit 0). -/
def trainPhase (cfg : Config) (env : Env) : List Emission × Nat :=
  let ht := hooksTrace cfg.epochs env.hooks
  match env.outcome with
  | TrainOutcome.interrupted =>
      (ht ++ [ev (log "warning" "Training interrupted by user")], 0)
  | TrainOutcome.failed msg =>
      (ht ++ [ev (error ("Training failed: " ++ msg))], 1)
  | TrainOutcome.normal rd =>
      (ht ++ postTrainEvents cfg env rd, 0)

/-- The observable result of one process invocation. -/
structure RunResult where
  /-- The events written to stdout, in order. -/
  trace : List Emission
  /-- The process exit code (0 on fall-through return). -/
  exitCode : Nat
  /-- The source passed to the `YOLO(...)` constructor, `none` when
  the dependency import failed before the load decision was reached. -/
  loadedModel : Option String
  deriving DecidableEq

/-- `train_yolov8(...)`: the whole controller.  Import failure emits one
`error` and exits 1; otherwise the preamble logs and the load-branch log
go out, then the load either raises (`KeyboardInterrupt` → warning log,
exit 0; other exception → `error`, exit 1) or succeeds, in which case
the "Starting training..." log is followed by the training phase. -/
def train_yolov8 (cfg : Config) (env : Env) : RunResult :=
  if env.ultralyticsAvailable then
    let pre := preambleEvents cfg ++ [loadLogEvent cfg env.lastCheckpointExists]
    let src := modelSource cfg env.lastCheckpointExists
    match env.load with
    | LoadResult.interrupted =>
        ⟨pre ++ [ev (log "warning" "Training interrupted by user")], 0, some src⟩
    | LoadResult.failed msg =>
        ⟨pre ++ [ev (error ("Training failed: " ++ msg))], 1, some src⟩
    | LoadResult.ok =>
        let tp := trainPhase cfg env
        ⟨pre ++ ev (log "info" "Starting training...") :: tp.1, tp.2, some src⟩
  else
    ⟨[ev (error "Ultralytics not installed. Run: pip install ultralytics")], 1, none⟩

/-- A terminal event: `completed` or `error`. -/
def isCompletedEm (em : Emission) : Bool := decide (em.event.type = "completed")

/-- An `error` event. -/
def isErrorEm (em : Emission) : Bool := decide (em.event.type = "error")

/-- Terminal events are exactly the `completed` and `error` events. -/
def isTerminalEm (em : Emission) : Bool := isCompletedEm em || isErrorEm em

/-- A `log` event whose `level` field is `"warning"`. -/
def isWarningLogEm (em : Emission) : Bool :=
  decide (em.event.type = "log")
    && decide (dictGet em.event.kwargs "level" = some (JValue.str "warning"))

/-- Whether a hook invocation is compatible with the engine contract
that a model-save callback fires only after `best.pt` has been written:
`true` for every hook except a model-save that fired while
`save_dir/weights/best.pt` was absent. -/
def hookSaveOk : HookCall → Bool
  | HookCall.modelSave _ _ best => best
  | _ => true

/-- A sample configuration (the script's CLI defaults, 3 epochs). -/
def cfgW : Config :=
  ⟨"yolov8n", "coco128", 3, 16, 640, 1 / 100, "runs/detect", false, "mps"⟩

/-- The sample configuration with the resume flag set. -/
def cfgResumeW : Config :=
  ⟨"yolov8n", "coco128", 3, 16, 640, 1 / 100, "runs/detect", true, "mps"⟩

/-- An environment where the ultralytics import fails. -/
def envNoDep : Env :=
  ⟨false, false, LoadResult.ok, [], TrainOutcome.normal none, false, 0⟩

/-- An environment where training is interrupted right after it starts. -/
def envInterrupt : Env :=
  ⟨true, false, LoadResult.ok, [], TrainOutcome.interrupted, false, 0⟩

/-- An environment where training raises an exception with message
`"boom"`. -/
def envFail : Env :=
  ⟨true, false, LoadResult.ok, [], TrainOutcome.failed "boom", false, 0⟩

/-- An environment where the engine fires the model-save hook at a
moment when `best.pt` does not exist, then the run is interrupted. -/
def envSaveNoBest : Env :=
  ⟨true, false, LoadResult.ok,
   [HookCall.modelSave 0 "runs/detect/train" false],
   TrainOutcome.interrupted, false, 0⟩

/-- An environment where every model-save hook fires with `best.pt`
on disk and the best-weights file exists at the end of a normal run. -/
def envSaveBest : Env :=
  ⟨true, false, LoadResult.ok,
   [HookCall.modelSave 0 "runs/detect/train" true],
   TrainOutcome.normal none, true, 7⟩

/-- An environment where a prior "last" checkpoint exists and a normal
run follows. -/
def envResume : Env :=
  ⟨true, true, LoadResult.ok, [], TrainOutcome.normal none, false, 7⟩

lemma dictUpdate_cons (d : List (String × JValue)) (p : String × JValue)
    (extra : List (String × JValue)) :
    dictUpdate d (p :: extra) = dictUpdate (dictSet d p.1 p.2) extra := rfl

lemma dictGet_dictSet_self (d : List (String × JValue)) (k : String) (v : JValue) :
    dictGet (dictSet d k v) k = some v := by
  induction d with
  | nil => simp [dictSet, dictGet]
  | cons p rest ih =>
      by_cases h : p.1 = k
      · simp [dictSet, h, dictGet]
      · simp [dictSet, h, dictGet, ih]

lemma dictGet_dictSet_ne (d : List (String × JValue)) (k1 k2 : String)
    (v : JValue) (h : k1 ≠ k2) :
    dictGet (dictSet d k1 v) k2 = dictGet d k2 := by
  induction d with
  | nil => simp [dictSet, dictGet, h]
  | cons p rest ih =>
      by_cases hp : p.1 = k1
      · have hpk : p.1 ≠ k2 := by rw [hp]; exact h
        simp [dictSet, hp, dictGet, h, hpk]
      · simp [dictSet, hp, dictGet, ih]

lemma dictGet_dictUpdate_notMem :
    ∀ (extra d : List (String × JValue)) (k : String),
      k ∉ extra.map Prod.fst →
      dictGet (dictUpdate d extra) k = dictGet d k := by
  intro extra
  induction extra with
  | nil => intro d k _; rfl
  | cons p rest ih =>
      intro d k h
      simp only [List.map_cons, List.mem_cons, not_or] at h
      rw [dictUpdate_cons, ih _ _ h.2, dictGet_dictSet_ne _ _ _ _ (Ne.symm h.1)]

lemma dictGet_dictUpdate_mem :
    ∀ (extra d : List (String × JValue)) (k : String) (v : JValue),
      (extra.map Prod.fst).Nodup → (k, v) ∈ extra →
      dictGet (dictUpdate d extra) k = some v := by
  intro extra
  induction extra with
  | nil => intro d k v _ hmem; simp at hmem
  | cons p rest ih =>
      intro d k v hnd hmem
      obtain ⟨k1, v1⟩ := p
      simp only [List.map_cons, List.nodup_cons] at hnd
      rw [dictUpdate_cons]
      rcases List.mem_cons.mp hmem with heq | hrest
      · injection heq with hk hv
        subst hk
        subst hv
        rw [dictGet_dictUpdate_notMem _ _ _ hnd.1]
        exact dictGet_dictSet_self d k v
      · exact ih _ _ _ hnd.2 hrest

lemma loadLog_safe (cfg : Config) (b : Bool) :
    isTerminalEm (loadLogEvent cfg b) = false
      ∧ isWarningLogEm (loadLogEvent cfg b) = false
      ∧ (loadLogEvent cfg b).pathExists = true := by
  unfold loadLogEvent
  split <;> exact ⟨rfl, rfl, rfl⟩

lemma pre_safe (cfg : Config) (b : Bool) :
    ∀ em ∈ preambleEvents cfg ++ [loadLogEvent cfg b],
      isTerminalEm em = false ∧ isWarningLogEm em = false
        ∧ em.pathExists = true := by
  intro em hmem
  rcases List.mem_append.mp hmem with h | h
  · simp only [preambleEvents, List.mem_cons, List.mem_singleton,
      List.not_mem_nil, or_false] at h
    rcases h with h | h | h | h <;> subst h <;> exact ⟨rfl, rfl, rfl⟩
  · rw [List.mem_singleton.mp h]
    exact loadLog_safe cfg b

lemma hookEvents_safe (epochs : Nat) (hk : HookCall) :
    ∀ em ∈ hookEvents epochs hk,
      isTerminalEm em = false ∧ isWarningLogEm em = false := by
  intro em hmem
  cases hk with
  | epochEnd e metrics =>
      simp only [hookEvents, on_train_epoch_end, List.mem_cons,
        List.not_mem_nil, or_false] at hmem
      rcases hmem with h | h | h <;> subst h <;> exact ⟨rfl, rfl⟩
  | batchEnd e b len =>
      by_cases hb : b % 10 = 0
      · simp only [hookEvents, on_train_batch_end, if_pos hb,
          List.mem_singleton] at hmem
        subst hmem
        exact ⟨rfl, rfl⟩
      · simp [hookEvents, on_train_batch_end, hb] at hmem
  | modelSave e dir best =>
      simp only [hookEvents, on_model_save, List.mem_singleton] at hmem
      subst hmem
      exact ⟨rfl, rfl⟩

lemma hooksTrace_safe (epochs : Nat) :
    ∀ (hooks : List HookCall), ∀ em ∈ hooksTrace epochs hooks,
      isTerminalEm em = false ∧ isWarningLogEm em = false := by
  intro hooks
  induction hooks with
  | nil => intro em h; simp [hooksTrace] at h
  | cons hk rest ih =>
      intro em h
      rcases List.mem_append.mp (by simpa [hooksTrace] using h) with h1 | h1
      · exact hookEvents_safe epochs hk em h1
      · exact ih em h1

lemma postTrainFront_safe (cfg : Config) (b : Bool) (d m : ℚ) :
    ∀ em ∈ postTrainFront cfg b d m,
      isTerminalEm em = false ∧ isWarningLogEm em = false := by
  intro em hmem
  cases b with
  | false =>
      simp only [postTrainFront, Bool.false_eq_true, if_false,
        List.append_nil, List.mem_cons, List.not_mem_nil, or_false] at hmem
      rcases hmem with h | h <;> subst h <;> exact ⟨rfl, rfl⟩
  | true =>
      simp only [postTrainFront, if_true, List.mem_append, List.mem_cons,
        List.mem_singleton, List.not_mem_nil, or_false] at hmem
      rcases hmem with (h | h) | h <;> subst h <;> exact ⟨rfl, rfl⟩

lemma postTrainFront_pathExists (cfg : Config) (b : Bool) (d m : ℚ) :
    ∀ em ∈ postTrainFront cfg b d m, em.pathExists = true := by
  intro em hmem
  cases b with
  | false =>
      simp only [postTrainFront, Bool.false_eq_true, if_false,
        List.append_nil, List.mem_cons, List.not_mem_nil, or_false] at hmem
      rcases hmem with h | h <;> subst h <;> rfl
  | true =>
      simp only [postTrainFront, if_true, List.mem_append, List.mem_cons,
        List.mem_singleton, List.not_mem_nil, or_false] at hmem
      rcases hmem with (h | h) | h <;> subst h <;> rfl

lemma postTrain_split (cfg : Config) (env : Env)
    (rd : Option (List (String × ℚ))) :
    ∃ m fl, postTrainEvents cfg env rd
      = postTrainFront cfg env.bestWeightsExistsAtEnd env.duration m
          ++ [ev (completed fl m env.duration)] :=
  ⟨_, _, rfl⟩

/-- Every event strictly before the last one in a run trace is
non-terminal. -/
lemma trace_dropLast_safe (cfg : Config) (env : Env) :
    ∀ a ∈ (train_yolov8 cfg env).trace.dropLast, isTerminalEm a = false := by
  intro a ha
  cases hua : env.ultralyticsAvailable with
  | false =>
      simp [train_yolov8, hua] at ha
  | true =>
      cases hload : env.load with
      | interrupted =>
          rw [show (train_yolov8 cfg env).trace
              = (preambleEvents cfg ++ [loadLogEvent cfg env.lastCheckpointExists])
                ++ [ev (log "warning" "Training interrupted by user")] by
            simp [train_yolov8, hua, hload]] at ha
          rw [List.dropLast_concat] at ha
          exact (pre_safe cfg env.lastCheckpointExists a ha).1
      | failed msg =>
          rw [show (train_yolov8 cfg env).trace
              = (preambleEvents cfg ++ [loadLogEvent cfg env.lastCheckpointExists])
                ++ [ev (error ("Training failed: " ++ msg))] by
            simp [train_yolov8, hua, hload]] at ha
          rw [List.dropLast_concat] at ha
          exact (pre_safe cfg env.lastCheckpointExists a ha).1
      | ok =>
          cases hout : env.outcome with
          | interrupted =>
              rw [show (train_yolov8 cfg env).trace
                  = ((preambleEvents cfg ++ [loadLogEvent cfg env.lastCheckpointExists])
                      ++ ev (log "info" "Starting training...")
                        :: hooksTrace cfg.epochs env.hooks)
                    ++ [ev (log "warning" "Training interrupted by user")] by
                simp [train_yolov8, trainPhase, hua, hload, hout]] at ha
              rw [List.dropLast_concat] at ha
              rcases List.mem_append.mp ha with h | h
              · exact (pre_safe cfg env.lastCheckpointExists a h).1
              · rcases List.mem_cons.mp h with h | h
                · rw [h]; rfl
                · exact (hooksTrace_safe cfg.epochs env.hooks a h).1
          | failed msg =>
              rw [show (train_yolov8 cfg env).trace
                  = ((preambleEvents cfg ++ [loadLogEvent cfg env.lastCheckpointExists])
                      ++ ev (log "info" "Starting training...")
                        :: hooksTrace cfg.epochs env.hooks)
                    ++ [ev (error ("Training failed: " ++ msg))] by
                simp [train_yolov8, trainPhase, hua, hload, hout]] at ha
              rw [List.dropLast_concat] at ha
              rcases List.mem_append.mp ha with h | h
              · exact (pre_safe cfg env.lastCheckpointExists a h).1
              · rcases List.mem_cons.mp h with h | h
                · rw [h]; rfl
                · exact (hooksTrace_safe cfg.epochs env.hooks a h).1
          | normal rd =>
              obtain ⟨m, fl, hpost⟩ := postTrain_split cfg env rd
              rw [show (train_yolov8 cfg env).trace
                  = ((preambleEvents cfg ++ [loadLogEvent cfg env.lastCheckpointExists])
                      ++ ev (log "info" "Starting training...")
                        :: (hooksTrace cfg.epochs env.hooks
                          ++ postTrainFront cfg env.bestWeightsExistsAtEnd
                              env.duration m))
                    ++ [ev (completed fl m env.duration)] by
                simp [train_yolov8, trainPhase, hua, hload, hout, hpost]] at ha
              rw [List.dropLast_concat] at ha
              rcases List.mem_append.mp ha with h | h
              · exact (pre_safe cfg env.lastCheckpointExists a h).1
              · rcases List.mem_cons.mp h with h | h
                · rw [h]; rfl
                · rcases List.mem_append.mp h with h | h
                  · exact (hooksTrace_safe cfg.epochs env.hooks a h).1
                  · exact (postTrainFront_safe cfg env.bestWeightsExistsAtEnd
                      env.duration m a h).1

/-- Claim C1: a terminal event (`completed` or `error`) is never
followed by any further event on the stream — whenever the trace splits
as `l₁ ++ em :: l₂` with `em` terminal, the remainder `l₂` is empty.
In particular at most one terminal event is emitted per run (a second
one would have to occur in the non-empty tail after the first), and on
interrupt no terminal event is emitted at all. -/
theorem c1_terminal_event_last (cfg : Config) (env : Env)
    (l₁ : List Emission) (em : Emission) (l₂ : List Emission)
    (htr : (train_yolov8 cfg env).trace = l₁ ++ em :: l₂)
    (hterm : isTerminalEm em = true) : l₂ = [] := by
  rcases List.eq_nil_or_concat l₂ with h | ⟨l3, x, h⟩
  · exact h
  · subst h
    rw [List.concat_eq_append] at htr
    have hmem : em ∈ (train_yolov8 cfg env).trace.dropLast := by
      rw [htr, show l₁ ++ em :: (l3 ++ [x]) = (l₁ ++ em :: l3) ++ [x] by simp,
        List.dropLast_concat]
      exact List.mem_append_right l₁ (List.mem_cons_self em l3)
    have hsafe := trace_dropLast_safe cfg env em hmem
    rw [hsafe] at hterm
    exact absurd hterm (by simp)

/-- Witness for C1: in the missing-dependency run the single `error`
event is terminal and nothing follows it. -/
theorem c1_terminal_event_last_witness :
    ((train_yolov8 cfgW envNoDep).trace
        = [] ++ ev (error "Ultralytics not installed. Run: pip install ultralytics") :: []
      ∧ isTerminalEm
          (ev (error "Ultralytics not installed. Run: pip install ultralytics")) = true)
    ∧ ([] : List Emission) = [] :=
  ⟨⟨rfl, rfl⟩,
   c1_terminal_event_last cfgW envNoDep []
     (ev (error "Ultralytics not installed. Run: pip install ultralytics")) []
     rfl rfl⟩

/-- Claim C2: when the ultralytics import fails, the run emits a single
`error` event as its only event, exits with status 1, and never reaches
the model-load decision (so the Running state is never entered). -/
theorem c2_missing_dependency (cfg : Config) (env : Env)
    (h : env.ultralyticsAvailable = false) :
    (train_yolov8 cfg env).trace.map (fun em => em.event.type) = ["error"]
    ∧ (train_yolov8 cfg env).exitCode = 1
    ∧ (train_yolov8 cfg env).loadedModel = none := by
  simp [train_yolov8, h, ev, error, emit]

/-- Witness for C2: the missing-dependency environment. -/
theorem c2_missing_dependency_witness :
    envNoDep.ultralyticsAvailable = false
    ∧ ((train_yolov8 cfgW envNoDep).trace.map (fun em => em.event.type) = ["error"]
      ∧ (train_yolov8 cfgW envNoDep).exitCode = 1
      ∧ (train_yolov8 cfgW envNoDep).loadedModel = none) :=
  ⟨rfl, c2_missing_dependency cfgW envNoDep rfl⟩

lemma completed_false_of_term (em : Emission) (h : isTerminalEm em = false) :
    isCompletedEm em = false := by
  unfold isTerminalEm at h
  cases hb : isCompletedEm em
  · rfl
  · rw [hb] at h; simp at h

lemma error_false_of_term (em : Emission) (h : isTerminalEm em = false) :
    isErrorEm em = false := by
  unfold isTerminalEm at h
  cases hb : isErrorEm em
  · rfl
  · rw [hb] at h; simp at h

lemma countP_zero_of_false (l : List Emission) (p : Emission → Bool)
    (h : ∀ a ∈ l, p a = false) : l.countP p = 0 :=
  List.countP_eq_zero.mpr (fun a ha => by simp [h a ha])

lemma hookEvents_pathExists (epochs : Nat) (hk : HookCall)
    (h : hookSaveOk hk = true) :
    ∀ em ∈ hookEvents epochs hk, em.pathExists = true := by
  intro em hmem
  cases hk with
  | epochEnd e metrics =>
      simp only [hookEvents, on_train_epoch_end, List.mem_cons,
        List.not_mem_nil, or_false] at hmem
      rcases hmem with h1 | h1 | h1 <;> subst h1 <;> rfl
  | batchEnd e b len =>
      by_cases hb : b % 10 = 0
      · simp only [hookEvents, on_train_batch_end, if_pos hb,
          List.mem_singleton] at hmem
        subst hmem
        rfl
      · simp [hookEvents, on_train_batch_end, hb] at hmem
  | modelSave e dir best =>
      simp only [hookSaveOk] at h
      simp only [hookEvents, on_model_save, List.mem_singleton] at hmem
      subst hmem
      exact h

lemma hooksTrace_pathExists (epochs : Nat) :
    ∀ hooks : List HookCall, (∀ hk ∈ hooks, hookSaveOk hk = true) →
      ∀ em ∈ hooksTrace epochs hooks, em.pathExists = true := by
  intro hooks
  induction hooks with
  | nil => intro _ em hm; simp [hooksTrace] at hm
  | cons hk rest ih =>
      intro h em hm
      rcases List.mem_append.mp (by simpa [hooksTrace] using hm) with h1 | h1
      · exact hookEvents_pathExists epochs hk
          (h hk (List.mem_cons_self hk rest)) em h1
      · exact ih (fun x hx => h x (List.mem_cons_of_mem hk hx)) em h1

/-- Claim C3: an external interrupt raised during the blocking training
call produces exactly one warning `log` event across the whole run, exit
code 0, and no `completed` or `error` event. -/
theorem c3_interrupt_run (cfg : Config) (env : Env)
    (h1 : env.ultralyticsAvailable = true) (h2 : env.load = LoadResult.ok)
    (h3 : env.outcome = TrainOutcome.interrupted) :
    (train_yolov8 cfg env).trace.countP isWarningLogEm = 1
    ∧ (train_yolov8 cfg env).exitCode = 0
    ∧ (train_yolov8 cfg env).trace.countP isCompletedEm = 0
    ∧ (train_yolov8 cfg env).trace.countP isErrorEm = 0 := by
  have htr : (train_yolov8 cfg env).trace
      = (preambleEvents cfg ++ [loadLogEvent cfg env.lastCheckpointExists])
        ++ ev (log "info" "Starting training...")
          :: (hooksTrace cfg.epochs env.hooks
            ++ [ev (log "warning" "Training interrupted by user")]) := by
    simp [train_yolov8, trainPhase, h1, h2, h3]
  have hexit : (train_yolov8 cfg env).exitCode = 0 := by
    simp [train_yolov8, trainPhase, h1, h2, h3]
  have hSw : isWarningLogEm (ev (log "info" "Starting training...")) = false := rfl
  have hWw : isWarningLogEm (ev (log "warning" "Training interrupted by user")) = true := rfl
  have hSc : isCompletedEm (ev (log "info" "Starting training...")) = false := rfl
  have hWc : isCompletedEm (ev (log "warning" "Training interrupted by user")) = false := rfl
  have hSe : isErrorEm (ev (log "info" "Starting training...")) = false := rfl
  have hWe : isErrorEm (ev (log "warning" "Training interrupted by user")) = false := rfl
  have hpre : ∀ a ∈ preambleEvents cfg,
      isTerminalEm a = false ∧ isWarningLogEm a = false :=
    fun a ha =>
      ⟨(pre_safe cfg env.lastCheckpointExists a
          (List.mem_append_left _ ha)).1,
       (pre_safe cfg env.lastCheckpointExists a
          (List.mem_append_left _ ha)).2.1⟩
  have hLL := loadLog_safe cfg env.lastCheckpointExists
  have hPw : (preambleEvents cfg).countP isWarningLogEm = 0 :=
    countP_zero_of_false _ _ (fun a ha => (hpre a ha).2)
  have hHw : (hooksTrace cfg.epochs env.hooks).countP isWarningLogEm = 0 :=
    countP_zero_of_false _ _
      (fun a ha => (hooksTrace_safe cfg.epochs env.hooks a ha).2)
  have hPc : (preambleEvents cfg).countP isCompletedEm = 0 :=
    countP_zero_of_false _ _
      (fun a ha => completed_false_of_term a (hpre a ha).1)
  have hHc : (hooksTrace cfg.epochs env.hooks).countP isCompletedEm = 0 :=
    countP_zero_of_false _ _
      (fun a ha =>
        completed_false_of_term a (hooksTrace_safe cfg.epochs env.hooks a ha).1)
  have hPe : (preambleEvents cfg).countP isErrorEm = 0 :=
    countP_zero_of_false _ _
      (fun a ha => error_false_of_term a (hpre a ha).1)
  have hHe : (hooksTrace cfg.epochs env.hooks).countP isErrorEm = 0 :=
    countP_zero_of_false _ _
      (fun a ha =>
        error_false_of_term a (hooksTrace_safe cfg.epochs env.hooks a ha).1)
  refine ⟨?_, hexit, ?_, ?_⟩
  · rw [htr]
    simp [List.countP_append, List.countP_cons, hPw, hHw, hSw, hWw, hLL.2.1]
  · rw [htr]
    simp [List.countP_append, List.countP_cons, hPc, hHc, hSc, hWc,
      completed_false_of_term _ hLL.1]
  · rw [htr]
    simp [List.countP_append, List.countP_cons, hPe, hHe, hSe, hWe,
      error_false_of_term _ hLL.1]

/-- Witness for C3: an interrupted run in a concrete environment. -/
theorem c3_interrupt_run_witness :
    (envInterrupt.ultralyticsAvailable = true
      ∧ envInterrupt.load = LoadResult.ok
      ∧ envInterrupt.outcome = TrainOutcome.interrupted)
    ∧ ((train_yolov8 cfgW envInterrupt).trace.countP isWarningLogEm = 1
      ∧ (train_yolov8 cfgW envInterrupt).exitCode = 0
      ∧ (train_yolov8 cfgW envInterrupt).trace.countP isCompletedEm = 0
      ∧ (train_yolov8 cfgW envInterrupt).trace.countP isErrorEm = 0) :=
  ⟨⟨rfl, rfl, rfl⟩, c3_interrupt_run cfgW envInterrupt rfl rfl rfl⟩

/-- Claim C10: in the metric emitter the extra keyword fields are merged
into the payload after the mandatory fields, so any extra pair — in
particular one whose key collides with `epoch`, `loss`, `accuracy` or
`step` — determines the value found in the emitted record at that key. -/
theorem c10_metric_extra_overrides (epoch : Nat) (loss : ℚ)
    (accuracy : Option ℚ) (step : Option Nat)
    (extra : List (String × JValue)) (k : String) (v : JValue)
    (hnd : (extra.map Prod.fst).Nodup) (hmem : (k, v) ∈ extra) :
    dictGet (metric epoch loss accuracy step extra).kwargs k = some v := by
  simp only [metric, emit]
  exact dictGet_dictUpdate_mem _ _ _ _ hnd hmem

/-- Witness for C10: an extra field named `loss` with value 99 overrides
the positional loss 5 in the emitted record. -/
theorem c10_metric_extra_overrides_witness :
    (([("loss", JValue.num 99)].map Prod.fst).Nodup
        ∧ ("loss", JValue.num 99) ∈ [("loss", JValue.num 99)])
    ∧ dictGet (metric 1 5 none none [("loss", JValue.num 99)]).kwargs "loss"
        = some (JValue.num 99) :=
  ⟨⟨by decide, by decide⟩,
   c10_metric_extra_overrides 1 5 none none _ _ _ (by decide) (by decide)⟩

/-- Claim C4: one epoch-end hook invocation emits exactly three events,
in the order metric, progress, log; the metric event's `loss` is the sum
of the box, cls and dfl components read from the trainer metrics, and
its payload also carries each named sub-component. -/
theorem c4_epoch_end_hook (epochs trainer_epoch : Nat)
    (metrics : List (String × ℚ)) :
    (on_train_epoch_end epochs trainer_epoch metrics).map
        (fun em => em.event.type) = ["metric", "progress", "log"]
    ∧ ((on_train_epoch_end epochs trainer_epoch metrics)[0]?).map
        (fun em => dictGet em.event.kwargs "loss")
      = some (some (JValue.num (metricsGet metrics "train/box_loss"
          + metricsGet metrics "train/cls_loss"
          + metricsGet metrics "train/dfl_loss")))
    ∧ ((on_train_epoch_end epochs trainer_epoch metrics)[0]?).map
        (fun em => dictGet em.event.kwargs "box_loss")
      = some (some (JValue.num (metricsGet metrics "train/box_loss")))
    ∧ ((on_train_epoch_end epochs trainer_epoch metrics)[0]?).map
        (fun em => dictGet em.event.kwargs "cls_loss")
      = some (some (JValue.num (metricsGet metrics "train/cls_loss")))
    ∧ ((on_train_epoch_end epochs trainer_epoch metrics)[0]?).map
        (fun em => dictGet em.event.kwargs "dfl_loss")
      = some (some (JValue.num (metricsGet metrics "train/dfl_loss"))) :=
  ⟨rfl, rfl, rfl, rfl, rfl⟩

/-- Claim C5: the batch-end hook emits a single step-level progress
event (with step and totalSteps populated) exactly when the batch index
is divisible by 10, and nothing otherwise. -/
theorem c5_batch_cadence (epochs trainer_epoch batch train_loader_len : Nat) :
    (batch % 10 = 0 →
      on_train_batch_end epochs trainer_epoch batch train_loader_len
        = [ev (progress (trainer_epoch + 1) epochs (some batch) (some train_loader_len))]
      ∧ dictGet (progress (trainer_epoch + 1) epochs (some batch)
          (some train_loader_len)).kwargs "step" = some (JValue.num (batch : ℚ))
      ∧ dictGet (progress (trainer_epoch + 1) epochs (some batch)
          (some train_loader_len)).kwargs "totalSteps"
          = some (JValue.num (train_loader_len : ℚ)))
    ∧ (¬ batch % 10 = 0 →
      on_train_batch_end epochs trainer_epoch batch train_loader_len = []) := by
  constructor
  · intro h
    refine ⟨?_, rfl, rfl⟩
    simp [on_train_batch_end, h]
  · intro h
    simp [on_train_batch_end, h]

/-- Witness for C5: batch index 10 emits the step-level progress event,
batch index 7 emits nothing. -/
theorem c5_batch_cadence_witness :
    (10 % 10 = 0
      ∧ (on_train_batch_end 3 0 10 50 = [ev (progress 1 3 (some 10) (some 50))]
        ∧ dictGet (progress 1 3 (some 10) (some 50)).kwargs "step"
            = some (JValue.num ((10 : Nat) : ℚ))
        ∧ dictGet (progress 1 3 (some 10) (some 50)).kwargs "totalSteps"
            = some (JValue.num ((50 : Nat) : ℚ))))
    ∧ (¬ 7 % 10 = 0 ∧ on_train_batch_end 3 0 7 50 = []) :=
  ⟨⟨by decide, (c5_batch_cadence 3 0 10 50).1 (by decide)⟩,
   ⟨by decide, (c5_batch_cadence 3 0 7 50).2 (by decide)⟩⟩

/-- Counterexample to C6 as stated: the model-save hook emits its
`checkpoint` event without any existence check, so in an environment
where the engine fires the hook while `best.pt` is absent, a
`checkpoint` event goes out whose path does not exist at emission
time. -/
theorem c6_checkpoint_counterexample :
    ¬ (∀ em ∈ (train_yolov8 cfgW envSaveNoBest).trace,
        em.event.type = "checkpoint" → em.pathExists = true) := by
  decide

/-- Claim C6 (amended): every `checkpoint` event emitted during a run
carries a path that exists at emission time, PROVIDED the engine only
fires its model-save callback when `save_dir/weights/best.pt` has been
written; the final best-weights `checkpoint` before `completed` is
guarded by an existence check in the script itself, but the hook-emitted
ones rely on this engine-side assumption. -/
theorem c6_checkpoint_path_exists (cfg : Config) (env : Env)
    (h : ∀ hk ∈ env.hooks, hookSaveOk hk = true) :
    ∀ em ∈ (train_yolov8 cfg env).trace,
      em.event.type = "checkpoint" → em.pathExists = true := by
  intro em hmem _
  cases hua : env.ultralyticsAvailable with
  | false =>
      rw [show (train_yolov8 cfg env).trace
          = [ev (error "Ultralytics not installed. Run: pip install ultralytics")] by
        simp [train_yolov8, hua]] at hmem
      rw [List.mem_singleton.mp hmem]
      rfl
  | true =>
      cases hload : env.load with
      | interrupted =>
          rw [show (train_yolov8 cfg env).trace
              = (preambleEvents cfg ++ [loadLogEvent cfg env.lastCheckpointExists])
                ++ [ev (log "warning" "Training interrupted by user")] by
            simp [train_yolov8, hua, hload]] at hmem
          rcases List.mem_append.mp hmem with h1 | h1
          · exact (pre_safe cfg env.lastCheckpointExists em h1).2.2
          · rw [List.mem_singleton.mp h1]; rfl
      | failed msg =>
          rw [show (train_yolov8 cfg env).trace
              = (preambleEvents cfg ++ [loadLogEvent cfg env.lastCheckpointExists])
                ++ [ev (error ("Training failed: " ++ msg))] by
            simp [train_yolov8, hua, hload]] at hmem
          rcases List.mem_append.mp hmem with h1 | h1
          · exact (pre_safe cfg env.lastCheckpointExists em h1).2.2
          · rw [List.mem_singleton.mp h1]; rfl
      | ok =>
          cases hout : env.outcome with
          | interrupted =>
              rw [show (train_yolov8 cfg env).trace
                  = (preambleEvents cfg ++ [loadLogEvent cfg env.lastCheckpointExists])
                    ++ ev (log "info" "Starting training...")
                      :: (hooksTrace cfg.epochs env.hooks
                        ++ [ev (log "warning" "Training interrupted by user")]) by
                simp [train_yolov8, trainPhase, hua, hload, hout]] at hmem
              rcases List.mem_append.mp hmem with h1 | h1
              · exact (pre_safe cfg env.lastCheckpointExists em h1).2.2
              · rcases List.mem_cons.mp h1 with h1 | h1
                · rw [h1]; rfl
                · rcases List.mem_append.mp h1 with h1 | h1
                  · exact hooksTrace_pathExists cfg.epochs env.hooks h em h1
                  · rw [List.mem_singleton.mp h1]; rfl
          | failed msg =>
              rw [show (train_yolov8 cfg env).trace
                  = (preambleEvents cfg ++ [loadLogEvent cfg env.lastCheckpointExists])
                    ++ ev (log "info" "Starting training...")
                      :: (hooksTrace cfg.epochs env.hooks
                        ++ [ev (error ("Training failed: " ++ msg))]) by
                simp [train_yolov8, trainPhase, hua, hload, hout]] at hmem
              rcases List.mem_append.mp hmem with h1 | h1
              · exact (pre_safe cfg env.lastCheckpointExists em h1).2.2
              · rcases List.mem_cons.mp h1 with h1 | h1
                · rw [h1]; rfl
                · rcases List.mem_append.mp h1 with h1 | h1
                  · exact hooksTrace_pathExists cfg.epochs env.hooks h em h1
                  · rw [List.mem_singleton.mp h1]; rfl
          | normal rd =>
              obtain ⟨m, fl, hpost⟩ := postTrain_split cfg env rd
              rw [show (train_yolov8 cfg env).trace
                  = (preambleEvents cfg ++ [loadLogEvent cfg env.lastCheckpointExists])
                    ++ ev (log "info" "Starting training...")
                      :: (hooksTrace cfg.epochs env.hooks
                        ++ (postTrainFront cfg env.bestWeightsExistsAtEnd
                              env.duration m
                          ++ [ev (completed fl m env.duration)])) by
                simp [train_yolov8, trainPhase, hua, hload, hout, hpost]] at hmem
              rcases List.mem_append.mp hmem with h1 | h1
              · exact (pre_safe cfg env.lastCheckpointExists em h1).2.2
              · rcases List.mem_cons.mp h1 with h1 | h1
                · rw [h1]; rfl
                · rcases List.mem_append.mp h1 with h1 | h1
                  · exact hooksTrace_pathExists cfg.epochs env.hooks h em h1
                  · rcases List.mem_append.mp h1 with h1 | h1
                    · exact postTrainFront_pathExists cfg
                        env.bestWeightsExistsAtEnd env.duration m em h1
                    · rw [List.mem_singleton.mp h1]; rfl

/-- Witness for C6 (amended): a run whose only model-save hook fired
with `best.pt` present. -/
theorem c6_checkpoint_path_exists_witness :
    (∀ hk ∈ envSaveBest.hooks, hookSaveOk hk = true)
    ∧ (∀ em ∈ (train_yolov8 cfgW envSaveBest).trace,
        em.event.type = "checkpoint" → em.pathExists = true) :=
  ⟨by decide, c6_checkpoint_path_exists cfgW envSaveBest (by decide)⟩

/-- Claim C8: the model is loaded from `output_dir/weights/last.pt`
exactly when the resume flag is set and that checkpoint exists; in every
other case (including resume with no prior checkpoint) the fresh
pretrained `{model_variant}.pt` baseline is loaded. -/
theorem c8_resume_load (cfg : Config) (env : Env)
    (h : env.ultralyticsAvailable = true) :
    (cfg.resume = true ∧ env.lastCheckpointExists = true →
      (train_yolov8 cfg env).loadedModel
        = some (cfg.output_dir ++ "/weights/last.pt"))
    ∧ (cfg.resume = false ∨ env.lastCheckpointExists = false →
      (train_yolov8 cfg env).loadedModel
        = some (cfg.model_variant ++ ".pt")) := by
  have hlm : (train_yolov8 cfg env).loadedModel
      = some (modelSource cfg env.lastCheckpointExists) := by
    cases hload : env.load <;> simp [train_yolov8, h, hload]
  constructor
  · rintro ⟨hr, hl⟩
    rw [hlm]
    simp [modelSource, hr, hl]
  · intro hfresh
    rw [hlm]
    rcases hfresh with hf | hf <;> simp [modelSource, hf]

/-- Witness for C8: the resume case (flag set, checkpoint present) loads
from the last checkpoint, and a fresh configuration loads the pretrained
baseline. -/
theorem c8_resume_load_witness :
    (envResume.ultralyticsAvailable = true
      ∧ (cfgResumeW.resume = true ∧ envResume.lastCheckpointExists = true)
      ∧ (train_yolov8 cfgResumeW envResume).loadedModel
          = some (cfgResumeW.output_dir ++ "/weights/last.pt"))
    ∧ (cfgW.resume = false
      ∧ (train_yolov8 cfgW envResume).loadedModel
          = some (cfgW.model_variant ++ ".pt")) :=
  ⟨⟨rfl, ⟨rfl, rfl⟩, (c8_resume_load cfgResumeW envResume rfl).1 ⟨rfl, rfl⟩⟩,
   ⟨rfl, (c8_resume_load cfgW envResume rfl).2 (Or.inl rfl)⟩⟩

/-- Counterexample to C9 as stated: when training fails with fault
message `"boom"`, no `error` event in the trace carries the message
`"boom"` itself — the emitted message is prefixed. -/
theorem c9_message_counterexample :
    ¬ ∃ em ∈ (train_yolov8 cfgW envFail).trace,
        isErrorEm em = true
          ∧ dictGet em.event.kwargs "message" = some (JValue.str "boom") := by
  decide

/-- Claim C9 (amended): any non-interrupt exception during model load or
training makes the run end with a single `error` event whose message is
the fault's message text prefixed by `"Training failed: "`, exit status
1, and no `completed` event. -/
theorem c9_failure_error_event (cfg : Config) (env : Env) (msg : String)
    (h1 : env.ultralyticsAvailable = true)
    (h2 : env.load = LoadResult.failed msg
      ∨ (env.load = LoadResult.ok ∧ env.outcome = TrainOutcome.failed msg)) :
    (train_yolov8 cfg env).trace.getLast?
        = some (ev (error ("Training failed: " ++ msg)))
    ∧ (train_yolov8 cfg env).exitCode = 1
    ∧ (train_yolov8 cfg env).trace.countP isErrorEm = 1
    ∧ (train_yolov8 cfg env).trace.countP isCompletedEm = 0 := by
  have hErr : isErrorEm (ev (error ("Training failed: " ++ msg))) = true := rfl
  have hErrC : isCompletedEm (ev (error ("Training failed: " ++ msg))) = false := rfl
  have hLL := loadLog_safe cfg env.lastCheckpointExists
  have hpre : ∀ a ∈ preambleEvents cfg, isTerminalEm a = false :=
    fun a ha =>
      (pre_safe cfg env.lastCheckpointExists a (List.mem_append_left _ ha)).1
  have hPe : (preambleEvents cfg).countP isErrorEm = 0 :=
    countP_zero_of_false _ _ (fun a ha => error_false_of_term a (hpre a ha))
  have hPc : (preambleEvents cfg).countP isCompletedEm = 0 :=
    countP_zero_of_false _ _ (fun a ha => completed_false_of_term a (hpre a ha))
  rcases h2 with h2 | ⟨h2, h3⟩
  · have htr : (train_yolov8 cfg env).trace
        = (preambleEvents cfg ++ [loadLogEvent cfg env.lastCheckpointExists])
          ++ [ev (error ("Training failed: " ++ msg))] := by
      simp [train_yolov8, h1, h2]
    have hexit : (train_yolov8 cfg env).exitCode = 1 := by
      simp [train_yolov8, h1, h2]
    refine ⟨?_, hexit, ?_, ?_⟩
    · rw [htr, List.getLast?_append_cons]
      rfl
    · rw [htr]
      simp [List.countP_append, List.countP_cons, hPe, hErr,
        error_false_of_term _ hLL.1]
    · rw [htr]
      simp [List.countP_append, List.countP_cons, hPc, hErrC,
        completed_false_of_term _ hLL.1]
  · have hSe : isErrorEm (ev (log "info" "Starting training...")) = false := rfl
    have hSc : isCompletedEm (ev (log "info" "Starting training...")) = false := rfl
    have hHe : (hooksTrace cfg.epochs env.hooks).countP isErrorEm = 0 :=
      countP_zero_of_false _ _
        (fun a ha =>
          error_false_of_term a (hooksTrace_safe cfg.epochs env.hooks a ha).1)
    have hHc : (hooksTrace cfg.epochs env.hooks).countP isCompletedEm = 0 :=
      countP_zero_of_false _ _
        (fun a ha =>
          completed_false_of_term a (hooksTrace_safe cfg.epochs env.hooks a ha).1)
    have htr : (train_yolov8 cfg env).trace
        = (preambleEvents cfg ++ [loadLogEvent cfg env.lastCheckpointExists])
          ++ ev (log "info" "Starting training...")
            :: (hooksTrace cfg.epochs env.hooks
              ++ [ev (error ("Training failed: " ++ msg))]) := by
      simp [train_yolov8, trainPhase, h1, h2, h3]
    have hexit : (train_yolov8 cfg env).exitCode = 1 := by
      simp [train_yolov8, trainPhase, h1, h2, h3]
    refine ⟨?_, hexit, ?_, ?_⟩
    · rw [htr,
        show (preambleEvents cfg ++ [loadLogEvent cfg env.lastCheckpointExists])
            ++ ev (log "info" "Starting training...")
              :: (hooksTrace cfg.epochs env.hooks
                ++ [ev (error ("Training failed: " ++ msg))])
          = ((preambleEvents cfg ++ [loadLogEvent cfg env.lastCheckpointExists])
              ++ ev (log "info" "Starting training...")
                :: hooksTrace cfg.epochs env.hooks)
            ++ [ev (error ("Training failed: " ++ msg))] by simp,
        List.getLast?_append_cons]
      rfl
    · rw [htr]
      simp [List.countP_append, List.countP_cons, hPe, hHe, hSe, hErr,
        error_false_of_term _ hLL.1]
    · rw [htr]
      simp [List.countP_append, List.countP_cons, hPc, hHc, hSc, hErrC,
        completed_false_of_term _ hLL.1]

/-- Witness for C9 (amended): a run whose training call fails with
message `"boom"`. -/
theorem c9_failure_error_event_witness :
    (envFail.ultralyticsAvailable = true
      ∧ (envFail.load = LoadResult.ok
        ∧ envFail.outcome = TrainOutcome.failed "boom"))
    ∧ ((train_yolov8 cfgW envFail).trace.getLast?
          = some (ev (error ("Training failed: " ++ "boom")))
      ∧ (train_yolov8 cfgW envFail).exitCode = 1
      ∧ (train_yolov8 cfgW envFail).trace.countP isErrorEm = 1
      ∧ (train_yolov8 cfgW envFail).trace.countP isCompletedEm = 0) :=
  ⟨⟨rfl, rfl, rfl⟩,
   c9_failure_error_event cfgW envFail "boom" rfl (Or.inr ⟨rfl, rfl⟩)⟩

/-- Counterexample to C7 as stated: an epoch-granularity progress call
(with both optional arguments absent) does NOT leave the `step` and
`totalSteps` keys out of the record — they are present with `null`. -/
theorem c7_progress_counterexample :
    ¬ (dictGet (progress 1 3 none none).kwargs "step" = none
       ∧ dictGet (progress 1 3 none none).kwargs "totalSteps" = none) := by
  decide

/-- Claim C7 (amended): an epoch-granularity progress call emits a
record in which `step` and `totalSteps` are present and bound to `null`
(the optional arguments are serialized as JSON null, not omitted). -/
theorem c7_progress_step_null (epoch total_epochs : Nat) :
    dictGet (progress epoch total_epochs none none).kwargs "step"
        = some JValue.null
    ∧ dictGet (progress epoch total_epochs none none).kwargs "totalSteps"
        = some JValue.null :=
  ⟨rfl, rfl⟩

end TrainYolo
